import Mathlib

/-!
# Verification of the piwheels master orchestration core

Shallow embedding of `piwheels/master/__init__.py` (the `PiWheelsMaster`
task bodies, `SlaveState`, `TransferState`) and of the atomic index-writer
discipline shared with `piwheels/master/the_scribe.py` (`AtomicReplaceFile`),
together with proofs of the frozen claims about them.

Python `range(a, b)` objects are modelled by `Rng` (half-open `[start, stop)`
over `Nat`); the backing file of a transfer is modelled as a `List Nat` of
byte values; dictionaries keyed by transport address are modelled as
association lists over `Nat` addresses.
-/

namespace PiWheels

/-- A Python `range(start, stop)`: the half-open interval `[start, stop)`.
`range` objects with `stop ≤ start` are empty (and falsy in Python). -/
structure Rng where
  start : Nat
  stop : Nat
deriving Repr, DecidableEq

/-- `len(r)` of a Python range: number of integers in `[start, stop)`. -/
def Rng.len (r : Rng) : Nat := r.stop - r.start

/-- Python truthiness of a range: non-empty. -/
def Rng.nonempty (r : Rng) : Bool := decide (r.start < r.stop)

/-- `i in r` for a Python range. -/
def Rng.memB (r : Rng) (i : Nat) : Bool := decide (r.start ≤ i) && decide (i < r.stop)

/-- Modelled from the spec: `piwheels/master/ranges.py` is not present under
`src/`; the spec describes the missing-range computation with set-subtraction
semantics over an ordered, disjoint list of half-open byte ranges.
`intersect(a, b)` returns the intersection of the two ranges (the Python
function's result is used only through its truthiness and its bounds). -/
def intersect (a b : Rng) : Rng :=
  ⟨max a.start b.start, min a.stop b.stop⟩

/-- Modelled from the spec: set-subtraction of the single range `ex` from the
single range `r`, producing the at-most-two non-empty remaining pieces
(the piece of `r` below `ex` and the piece of `r` above `ex`), in order. -/
def subtractRng (r ex : Rng) : List Rng :=
  (if (Rng.mk r.start (min r.stop ex.start)).nonempty
     then [Rng.mk r.start (min r.stop ex.start)] else [])
  ++ (if (Rng.mk (max r.start ex.stop) r.stop).nonempty
     then [Rng.mk (max r.start ex.stop) r.stop] else [])

/-- Modelled from the spec: `exclude(ranges, ex)` subtracts the range `ex`
from every range of the ordered disjoint list `ranges`, keeping the list
ordered and disjoint ("an explicit ordered list and a linear-time
subtract-range routine"). -/
def exclude (m : List Rng) (ex : Rng) : List Rng :=
  m.flatMap (fun r => subtractRng r ex)

/-- Write `data` into the byte list `file` starting at `offset`,
extending the file (zero-filled, as a sparse file reads back) when the write
reaches past the current end.  A zero-length write leaves the file unchanged
(Python's `file.write(b'')` after a seek does not extend the file). -/
def writeAt (file : List Nat) (offset : Nat) (data : List Nat) : List Nat :=
  if data.isEmpty then file
  else
    (List.range (max file.length (offset + data.length))).map fun i =>
      if offset ≤ i ∧ i < offset + data.length then data.getD (i - offset) 0
      else file.getD i 0

/-- `TransferState` (`__init__.py` lines 530-614): per-file receive context.
`file` models the bytes of the backing temporary file (truncated to
`filesize` zeros on creation); `credit`, `offset` and `map` model `_credit`,
`_offset` and `_map`. The `filesize` argument of the constructor is not
stored by the Python object and is likewise not a field here. -/
structure TransferState where
  file : List Nat
  credit : Nat
  offset : Nat
  map : List Rng
deriving Repr, DecidableEq

namespace TransferState

/-- `TransferState.chunk_size = 65536`. -/
def chunk_size : Nat := 65536

/-- `TransferState.pipeline_size = 10`. -/
def pipeline_size : Nat := 10

/-- `TransferState.__init__(filesize)` (lines 535-548): truncate the backing
file to `filesize`, set initial credit to
`max(1, min(pipeline_size, filesize // chunk_size))`, start the fetch offset
at 0, and record the whole file as missing (`[range(filesize)]`). -/
def init (filesize : Nat) : TransferState :=
  { file := List.replicate filesize 0
    credit := max 1 (min pipeline_size (filesize / chunk_size))
    offset := 0
    map := [⟨0, filesize⟩] }

/-- `TransferState.done` (lines 551-552): true iff `_map` is empty. -/
def done (s : TransferState) : Bool := s.map.isEmpty

/-- `TransferState.chunk(offset, data)` (lines 572-579): write the data at
the offset, subtract the written range from `_map`, then zero the credit if
the transfer is complete and bump it by one otherwise. -/
def chunk (s : TransferState) (offset : Nat) (data : List Nat) : TransferState :=
  let m := exclude s.map ⟨offset, offset + data.length⟩
  { s with
    file := writeAt s.file offset data
    map := m
    credit := if m.isEmpty then 0 else s.credit + 1 }

/-- `TransferState.reset_credit()` (lines 581-588): restore the credit to the
full pipeline depth, but only when it has run out. -/
def reset_credit (s : TransferState) : TransferState :=
  if s.credit = 0 then { s with credit := pipeline_size } else s

/-- One result of the `for map_range in self._map` loop inside
`TransferState.fetch` (lines 559-566): either an intersection was found and
returned, or the loop ran off the end of `_map` (the final value of the
`fetch_range` variable is discarded by the caller, which recomputes it). -/
inductive ScanResult where
  | found (r : Rng)
  | missed
deriving Repr, DecidableEq

/-- The `for map_range in self._map` loop of `fetch` (lines 560-566): walk the
missing ranges in order with the current candidate window `fr`; return the
first non-empty intersection; when a missing range starts beyond the window,
slide the window to that range's start (and, as in the source, continue with
the *next* missing range). -/
def scan (m : List Rng) (fr : Rng) : ScanResult :=
  match m with
  | [] => .missed
  | mr :: rest =>
    if (intersect mr fr).nonempty then .found (intersect mr fr)
    else if fr.start < mr.start then
      scan rest ⟨mr.start, mr.start + chunk_size⟩
    else scan rest fr

/-- The `while True` loop of `fetch` (lines 559-570), fuel-indexed.  Each
iteration runs one `scan` pass; a missed pass restarts with the window at
`_map[0].start` (or returns `None` via `IndexError` when `_map` is empty).
`none` means the loop never terminates.  Two units of fuel decide the loop
exactly: a second missed pass restarts with the identical window, so every
later pass repeats the second one (`fetchAux_fuel` below). -/
def fetchAux : Nat → List Rng → Rng → Option (Option Rng)
  | 0, _, _ => none
  | fuel + 1, m, fr =>
    match scan m fr with
    | .found r => some (some r)
    | .missed =>
      match m with
      | [] => some none
      | m0 :: _ => fetchAux fuel m ⟨m0.start, m0.start + chunk_size⟩

/-- `TransferState.fetch()` (lines 554-570).  Returns `none` when the
`while True` loop of the source never terminates; otherwise
`some (result, new state)`, where a `some r` result sets `_offset` to
`r.stop`.  With zero credit the method falls through and returns `None`
without touching the state; with positive credit it first decrements the
credit. -/
def fetch (s : TransferState) : Option (Option Rng × TransferState) :=
  if s.credit = 0 then some (none, s)
  else
    let s1 : TransferState := { s with credit := s.credit - 1 }
    match fetchAux 2 s.map ⟨s.offset, s.offset + chunk_size⟩ with
    | none => none
    | some none => some (none, s1)
    | some (some r) => some (some r, { s1 with offset := r.stop })

end TransferState

/-- One call made on a `TransferState` by its owners (`SlaveDriver` creates
it, `BuildCatcher` drives it): either `chunk(offset, data)` or `fetch()`. -/
inductive Op where
  | chunkOp (offset : Nat) (data : List Nat)
  | fetchOp
deriving Repr, DecidableEq

/-- Apply one call to a `TransferState`; `none` when the call never returns
(the `while True` loop of `fetch` can spin forever on a degenerate map). -/
def applyOp (s : TransferState) : Op → Option TransferState
  | .chunkOp offset data => some (s.chunk offset data)
  | .fetchOp => (s.fetch).map Prod.snd

/-- Apply a sequence of calls in order. -/
def applyOps (s : TransferState) : List Op → Option TransferState
  | [] => some s
  | op :: ops => (applyOp s op).bind (fun s1 => applyOps s1 ops)

/-- Does the single call `op` deliver byte `i`? (`fetch` delivers nothing.) -/
def covOp (op : Op) (i : Nat) : Bool :=
  match op with
  | .chunkOp offset data => (Rng.mk offset (offset + data.length)).memB i
  | .fetchOp => false

/-- Was byte `i` delivered by some chunk of the call sequence `ops`? -/
def covered (ops : List Op) (i : Nat) : Bool := ops.any (fun op => covOp op i)

/-- Number of bytes of `[0, filesize)` delivered by some chunk of `ops`
(a duplicated byte counts once). -/
def receivedCount (filesize : Nat) (ops : List Op) : Nat :=
  ((Finset.range filesize).filter (fun i => covered ops i = true)).card

/-- Total length of a list of ranges: `sum(len(r) for r in missing_ranges)`. -/
def totalLen (m : List Rng) : Nat := (m.map Rng.len).sum

/-- Is byte `i` inside some range of the list `m`? -/
def unionMemB (m : List Rng) (i : Nat) : Bool := m.any (fun r => r.memB i)

/-- Well-formedness of the `_map` list of a transfer created with the given
filesize: every range is within `[0, filesize)` and the list is ordered and
disjoint (each range ends before the next begins, and starts strictly
increase). -/
def RangesInv (filesize : Nat) (m : List Rng) : Prop :=
  (∀ r ∈ m, r.start ≤ r.stop ∧ r.stop ≤ filesize) ∧
  m.Pairwise (fun a b => a.stop ≤ b.start ∧ a.start < b.start)

/-- The post-message loop of `build_catcher` (lines 364-371): call `fetch()`
repeatedly, collecting the returned ranges, until it returns `None`.
Each successful `fetch` decrements the credit, so the credit bounds the
number of iterations; `none` propagates a `fetch` call that never returns. -/
def fetchLoopAux : Nat → TransferState → Option (List Rng × TransferState)
  | 0, s => some ([], s)
  | fuel + 1, s =>
    match s.fetch with
    | none => none
    | some (none, s1) => some ([], s1)
    | some (some r, s1) =>
      match fetchLoopAux fuel s1 with
      | none => none
      | some (rs, s2) => some (r :: rs, s2)

/-- The post-message loop of `build_catcher`, with its fuel fixed at the
credit of the state (each successful `fetch` consumes one credit, and at
zero credit `fetch` returns `None` without touching the state, so this fuel
is exact). -/
def fetchLoop (s : TransferState) : Option (List Rng × TransferState) :=
  fetchLoopAux s.credit s

/-- `BuildState` (lines 449-463): immutable record of one build report. -/
structure BuildState where
  slave_id : Nat
  package : String
  version : String
  status : Bool
  output : String
  filename : String
  filesize : Nat
  filehash : String
  duration : Nat
  package_version_tag : String
  py_version_tag : String
  abi_tag : String
  platform_tag : String
deriving Repr, DecidableEq

/-- The arguments of a `BUILT` message (`value[1:]` consumed by
`BuildState(self._slave_id, *value[1:])`, line 512). -/
structure BuiltArgs where
  package : String
  version : String
  status : Bool
  output : String
  filename : String
  filesize : Nat
  filehash : String
  duration : Nat
  package_version_tag : String
  py_version_tag : String
  abi_tag : String
  platform_tag : String
deriving Repr, DecidableEq

/-- An inbound worker-protocol message (first JSON element plus arguments). -/
inductive SlaveMsg where
  | hello
  | bye
  | idle
  | built (a : BuiltArgs)
  | sent
  | other (tag : String)
deriving Repr, DecidableEq

/-- An outbound worker-protocol reply. -/
inductive Reply where
  | hello (slave_id : Nat)
  | sleep
  | build (package version : String)
  | send
  | done
  | bye
deriving Repr, DecidableEq

/-- `SlaveState` (lines 466-527): per-worker protocol context.  The class
counter lives in `DriverState`; timestamps are abstract `Nat` ticks. -/
structure SlaveState where
  slave_id : Nat
  last_seen : Option Nat
  request : Option SlaveMsg
  reply : Option Reply
  build : Option BuildState
  transfer : Option TransferState
  terminated : Bool
deriving Repr, DecidableEq

namespace SlaveState

/-- `SlaveState.__init__` (lines 470-478) for a freshly allocated id. -/
def init (id : Nat) : SlaveState :=
  { slave_id := id, last_seen := none, request := none, reply := none,
    build := none, transfer := none, terminated := false }

/-- The `request` property setter (lines 507-512): record the message and the
arrival time; a `BUILT` message additionally materialises the `BuildState`
with this slave's id prepended. -/
def setRequest (now : Nat) (s : SlaveState) (m : SlaveMsg) : SlaveState :=
  let s1 := { s with last_seen := some now, request := some m }
  match m with
  | .built a =>
    { s1 with build := some {
        slave_id := s.slave_id, package := a.package, version := a.version,
        status := a.status, output := a.output, filename := a.filename,
        filesize := a.filesize, filehash := a.filehash, duration := a.duration,
        package_version_tag := a.package_version_tag,
        py_version_tag := a.py_version_tag, abi_tag := a.abi_tag,
        platform_tag := a.platform_tag } }
  | _ => s1

/-- The `reply` property setter (lines 518-527): record the reply; a `SEND`
reply constructs a brand-new `TransferState` from the current build's
filesize (an `AttributeError` — modelled as `none` — if there is no current
build); a `DONE` reply discards both the build and the transfer.  The
status-queue publication of the setter carries no state and is not
modelled. -/
def setReply (s : SlaveState) (r : Reply) : Option SlaveState :=
  let s1 := { s with reply := some r }
  match r with
  | .send =>
    match s1.build with
    | none => none
    | some b => some { s1 with transfer := some (TransferState.init b.filesize) }
  | .done => some { s1 with build := none, transfer := none }
  | _ => some s1

end SlaveState

/-- Association-list lookup for the `self.slaves` / `self.transfers` dicts
keyed by transport address. -/
def lookupAddr {α : Type} (l : List (Nat × α)) (a : Nat) : Option α :=
  (l.find? (fun p => p.1 == a)).map Prod.snd

/-- Store a value under an address (replacing any previous binding). -/
def insertAddr {α : Type} (l : List (Nat × α)) (a : Nat) (v : α) : List (Nat × α) :=
  (a, v) :: l.filter (fun p => p.1 != a)

/-- Delete an address binding (`del d[address]`). -/
def removeAddr {α : Type} (l : List (Nat × α)) (a : Nat) : List (Nat × α) :=
  l.filter (fun p => p.1 != a)

/-- The state owned by the `slave_driver` loop (lines 202-295): the
address-to-`SlaveState` dict, the `SlaveState.counter` class variable, the
shared `paused` flag, the pending builds queue, and the loop-local `reply`
variable, which survives from one message to the next (the `else` branch of
the dispatch reads it without assigning it first). -/
structure DriverState where
  slaves : List (Nat × SlaveState)
  counter : Nat
  paused : Bool
  buildQueue : List (String × String)
  lastReplyVar : Option Reply
deriving Repr, DecidableEq

/-- What one iteration of the `slave_driver` loop produced: the new state,
the reply frame sent back to the worker (if any), and the package names
pushed onto the `indexes` queue. -/
structure StepResult where
  state : DriverState
  sent : Option Reply
  indexEmits : List String
deriving Repr, DecidableEq

/-- One iteration of the `slave_driver` loop for a received message
(lines 226-289), parameterised by the boolean outcome of
`TransferState.verify` (which hashes the backing file on disk — `verify`
abstracts that I/O as a function of the transfer and the build record).
`none` models an uncaught exception in the handler: `verify(None)` when
there is no current build, or the `NameError` of the dispatch `else` branch
reading the never-assigned `reply` variable on the first iteration.
Database persistence (`db.log_build`) and the status queue carry no
driver state and are not modelled. -/
def slaveDriverStep (verify : TransferState → BuildState → Bool) (now : Nat)
    (ds : DriverState) (addr : Nat) (msg : SlaveMsg) : Option StepResult :=
  -- `try: slave = self.slaves[address] except KeyError:` (lines 232-239)
  let found : Option (SlaveState × DriverState) :=
    match lookupAddr ds.slaves addr with
    | some slave => some (slave, ds)
    | none =>
      match msg with
      | .hello =>
        let id := ds.counter + 1
        some (SlaveState.init id, { ds with counter := id })
      | _ => none
  match found with
  | none =>
    -- invalid first message from slave: log and drop
    match msg with
    | .hello => none  -- unreachable: `found` is `some` for HELLO
    | _ => some { state := ds, sent := none, indexEmits := [] }
  | some (slave0, ds0) =>
    let slave1 := slave0.setRequest now msg
    -- the dict holds the (mutated) object even on the `continue` paths
    let ds1 := { ds0 with slaves := insertAddr ds0.slaves addr slave1 }
    -- a reply-sending path: run the `reply` setter, send, remember `reply`
    let finish : Reply → DriverState → List String → Option StepResult :=
      fun r ds2 emits =>
        match slave1.setReply r with
        | none => none
        | some slave2 =>
          let ds3 := { ds2 with
            slaves := insertAddr ds2.slaves addr slave2
            lastReplyVar := some r }
          some { state := ds3, sent := some r, indexEmits := emits }
    match msg with
    | .hello => finish (.hello slave1.slave_id) ds1 []
    | .bye =>
      some { state := { ds1 with slaves := removeAddr ds1.slaves addr },
             sent := none, indexEmits := [] }
    | .idle =>
      if slave1.terminated then finish .bye ds1 []
      else if ds1.paused then finish .sleep ds1 []
      else
        match ds1.buildQueue with
        | (p, v) :: rest => finish (.build p v) { ds1 with buildQueue := rest } []
        | [] => finish .sleep ds1 []
    | .built _ =>
      match slave1.build with
      | none => none  -- `slave.build.status` on a missing build
      | some b => if b.status then finish .send ds1 [] else finish .done ds1 []
    | .sent =>
      match slave1.transfer with
      | none => some { state := ds1, sent := none, indexEmits := [] }
      | some t =>
        match slave1.build with
        | none => none  -- `verify` dereferences `build.filehash`
        | some b =>
          if verify t b then finish .done ds1 [b.package]
          else finish .send ds1 []
    | .other _ =>
      match ds1.lastReplyVar with
      | none => none  -- NameError: `reply` never assigned yet
      | some r => finish r ds1 []  -- resends the stale previous reply

/-- An inbound file-transfer-protocol message (`build_catcher`): the tag
frame plus arguments.  An unparseable ASCII integer argument is `none`. -/
inductive FileMsg where
  | hello (slaveIdArg : Option Nat)
  | chunk (offsetArg : Option Nat) (data : List Nat)
  | other (tag : String)
deriving Repr, DecidableEq

/-- The transfer dict owned by `build_catcher`.  A value can be `none`: the
`HELLO` adoption path stores `slave.transfer` even when it is `None`. -/
structure CatcherState where
  transfers : List (Nat × Option TransferState)
deriving Repr, DecidableEq

/-- A frame sent on the file-transfer socket by the master. -/
inductive FileOut where
  | doneOut (addr : Nat)
  | fetchOut (addr : Nat) (start length : Nat)
deriving Repr, DecidableEq

/-- The trailing FETCH-issuing loop of one `build_catcher` iteration
(lines 364-371) for the transfer bound to `addr`. -/
def issueFetches (addr : Nat) (t : TransferState) :
    Option (TransferState × List FileOut) :=
  (fetchLoop t).map fun p =>
    (p.2, p.1.map (fun r => FileOut.fetchOut addr r.start r.len))

/-- One iteration of the `build_catcher` loop for a received message
(lines 310-371), given a read-only view of the slaves (the driver's dict
values).  Returns the new transfer dict and the frames sent; `none` models
an uncaught exception killing the task (e.g. `transfer.fetch()` when the
adopted transfer is `None`, or an unparseable `CHUNK` offset) or a `fetch`
call that never returns. -/
def buildCatcherStep (slaves : List SlaveState) (cs : CatcherState)
    (addr : Nat) (msg : FileMsg) : Option (CatcherState × List FileOut) :=
  match lookupAddr cs.transfers addr with
  | none =>
    -- `except KeyError:` (lines 315-340)
    match msg with
    | .chunk _ _ => some (cs, [])   -- redundant CHUNK from prior transfer
    | .other _ => some (cs, [])     -- invalid start transfer: log and drop
    | .hello none => some (cs, [])  -- int(args[0]) raised ValueError
    | .hello (some sid) =>
      match (slaves.filter (fun s => s.slave_id == sid)).head? with
      | none => some (cs, [])       -- IndexError: unknown slave_id
      | some slave =>
        match slave.transfer with
        | none => none  -- stores None, then faults on `transfer.fetch()`
        | some t =>
          match issueFetches addr t with
          | none => none
          | some (t1, outs) =>
            some ({ transfers := insertAddr cs.transfers addr (some t1) }, outs)
  | some tOpt =>
    -- `else:` (lines 342-362)
    match msg with
    | .chunk offsetArg data =>
      match tOpt with
      | none => none  -- `None.chunk(...)`
      | some t =>
        match offsetArg with
        | none => none  -- uncaught ValueError from int(args[0])
        | some offset =>
          let t1 := t.chunk offset data
          if t1.done then
            some ({ transfers := removeAddr cs.transfers addr }, [.doneOut addr])
          else
            match issueFetches addr t1 with
            | none => none
            | some (t2, outs) =>
              some ({ transfers := insertAddr cs.transfers addr (some t2) }, outs)
    | .hello _ =>
      match tOpt with
      | none => none  -- `None.reset_credit()`
      | some t =>
        match issueFetches addr t.reset_credit with
        | none => none
        | some (t2, outs) =>
          some ({ transfers := insertAddr cs.transfers addr (some t2) }, outs)
    | .other _ =>
      -- invalid chunk header: log, keep the entry, still issue fetches
      match tOpt with
      | none => none
      | some t =>
        match issueFetches addr t with
        | none => none
        | some (t2, outs) =>
          some ({ transfers := insertAddr cs.transfers addr (some t2) }, outs)

/-- The head of the missing-range list, when present, is a non-empty range.
Every map reachable through `chunk` satisfies this (pieces kept by `exclude`
are non-empty); it is exactly the condition under which the `while True`
loop of `fetch` terminates: a second missed pass restarts the window at
`_map[0].start`, which intersects `_map[0]` iff `_map[0]` is non-empty. -/
def headOk (m : List Rng) : Bool :=
  match m with
  | [] => true
  | r :: _ => decide (r.start < r.stop)

/-- A filesystem event performed by an index writer. -/
inductive FsOp where
  | createTemp (dir name : String)
  | writeFull (name : String)
  | writePartial (name : String)
  | chmod644 (name : String)
  | closeFile (name : String)
  | rename (src dst : String)
  | unlink (name : String)
deriving Repr, DecidableEq

/-- The filesystem trace of one `AtomicReplaceFile` use
(`the_scribe.py` lines 476-496): create the temporary in the target's
directory, write the body (`writeOk` says whether the body completed or
raised), then — in `__exit__` — set mode 0644, close, and either rename the
temporary over the target (no exception) or unlink it (exception). -/
def atomicReplaceFileRun (dir tmp target : String) (writeOk : Bool) : List FsOp :=
  [.createTemp dir tmp]
  ++ (if writeOk then [.writeFull tmp] else [.writePartial tmp])
  ++ [.chmod644 tmp, .closeFile tmp]
  ++ (if writeOk then [.rename tmp target] else [.unlink tmp])

/-- The filesystem trace of `write_root_index` / `write_package_index`
(`__init__.py` lines 376-416): create the temporary
(`NamedTemporaryFile(delete=False)`) in the destination directory; on a
successful write, set mode 0644 and `os.replace` over the target inside the
`with` block, then close; on a write error, the context manager merely
closes the handle — with `delete=False` the temporary is left behind and
the exception propagates. -/
def namedTempIndexWrite (dir tmp target : String) (writeOk : Bool) : List FsOp :=
  [.createTemp dir tmp]
  ++ (if writeOk then [.writeFull tmp, .chmod644 tmp, .rename tmp target] else [.writePartial tmp])
  ++ [.closeFile tmp]

/-- Does the event `op` touch the file at path `p` (create, write, chmod, or
reveal content at `p` by renaming onto it)? -/
def touchesPath (p : String) (op : FsOp) : Bool :=
  match op with
  | .createTemp _ name => name == p
  | .writeFull name => name == p
  | .writePartial name => name == p
  | .chmod644 name => name == p
  | .closeFile name => name == p
  | .rename _ dst => dst == p
  | .unlink name => name == p

/-! Concrete states used to instantiate the theorems below. -/

/-- A successful 3-byte build report. -/
def egBuild : BuildState :=
  { slave_id := 1, package := "foo", version := "1.0", status := true,
    output := "ok", filename := "foo-1.0-py3-none-any.whl", filesize := 3,
    filehash := "abc", duration := 12, package_version_tag := "1.0",
    py_version_tag := "py3", abi_tag := "none", platform_tag := "any" }

/-- A worker in the SENDING phase: build reported, transfer in progress. -/
def egSendingSlave : SlaveState :=
  { SlaveState.init 1 with
    build := some egBuild
    transfer := some (TransferState.init 3) }

/-- A driver owning the SENDING worker of `egSendingSlave` at address 7. -/
def egSendingDriver : DriverState :=
  { slaves := [(7, egSendingSlave)], counter := 1, paused := false,
    buildQueue := [], lastReplyVar := none }

/-- A driver already knowing a (fresh) worker at address 7. -/
def egKnownDriver : DriverState :=
  { slaves := [(7, SlaveState.init 3)], counter := 3, paused := false,
    buildQueue := [], lastReplyVar := none }

/-- A driver whose worker at address 7 has had its terminated flag set. -/
def egKilledDriver : DriverState :=
  { slaves := [(7, { SlaveState.init 2 with terminated := true })],
    counter := 2, paused := false, buildQueue := [], lastReplyVar := none }

/-- A completed transfer whose credit was then restored by a spurious
`HELLO` (`reset_credit`): its missing-range list is empty while its credit
is the full pipeline depth. -/
def egEmptyMapTransfer : TransferState :=
  TransferState.reset_credit (TransferState.chunk (TransferState.init 3) 0 [1, 2, 3])

/-- An empty transfer dict. -/
def egCatcherEmpty : CatcherState := { transfers := [] }

/-- A transfer dict with a live 8-byte transfer at address 5. -/
def egCatcherLive : CatcherState :=
  { transfers := [(5, some (TransferState.init 8))] }

/-- A short call sequence on a 2-byte transfer: one 1-byte chunk, then a
fetch. -/
def egOps : List Op := [Op.chunkOp 0 [7], Op.fetchOp]

/-- The state a 2-byte transfer reaches after `egOps`. -/
def egC2End : TransferState :=
  { file := [7, 0], credit := 1, offset := 2, map := [Rng.mk 1 2] }

/-! ## Lemmas about the fetch-range selection -/

/-- Any range produced by one pass of the inner loop of `fetch` is a
non-empty subrange of some missing range. -/
theorem scan_found {m : List Rng} {fr r : Rng}
    (h : TransferState.scan m fr = .found r) :
    r.start < r.stop ∧ ∃ mr ∈ m, mr.start ≤ r.start ∧ r.stop ≤ mr.stop := by
  induction m generalizing fr with
  | nil => simp [TransferState.scan] at h
  | cons mr rest ih =>
    rw [TransferState.scan] at h
    split at h
    · rename_i hne
      cases h
      refine ⟨by simpa [Rng.nonempty] using hne, mr, List.mem_cons_self mr rest, ?_, ?_⟩
      · simp [intersect]
      · simp [intersect]
    · split at h
      · obtain ⟨h1, mr1, hmem, h3⟩ := ih h
        exact ⟨h1, mr1, List.mem_cons_of_mem _ hmem, h3⟩
      · obtain ⟨h1, mr1, hmem, h3⟩ := ih h
        exact ⟨h1, mr1, List.mem_cons_of_mem _ hmem, h3⟩

/-- Any range produced by the `while True` loop of `fetch` is a non-empty
subrange of some missing range. -/
theorem fetchAux_found {fuel : Nat} {m : List Rng} {fr r : Rng}
    (h : TransferState.fetchAux fuel m fr = some (some r)) :
    r.start < r.stop ∧ ∃ mr ∈ m, mr.start ≤ r.start ∧ r.stop ≤ mr.stop := by
  induction fuel generalizing fr with
  | zero => simp [TransferState.fetchAux] at h
  | succ n ih =>
    simp only [TransferState.fetchAux] at h
    rcases hs : TransferState.scan m fr with r1 | _
    · rw [hs] at h
      cases h
      exact scan_found hs
    · rw [hs] at h
      match m, h with
      | m0 :: rest, h => exact ih h

/-- `fetch` only renumbers `credit` and `offset`: the missing-range list and
the file bytes are untouched, and the credit decreases by one (saturating
at zero, where `fetch` returns without touching the state). -/
theorem fetch_preserves {s : TransferState} {ro : Option Rng} {s2 : TransferState}
    (h : s.fetch = some (ro, s2)) :
    s2.map = s.map ∧ s2.file = s.file ∧ s2.credit = s.credit - 1 := by
  unfold TransferState.fetch at h
  by_cases hc : s.credit = 0
  · rw [if_pos hc] at h
    cases h
    simp [hc]
  · rw [if_neg hc] at h
    rcases haux : TransferState.fetchAux 2 s.map ⟨s.offset, s.offset + TransferState.chunk_size⟩
      with _ | _ | r1
    · rw [haux] at h; cases h
    · rw [haux] at h; cases h; exact ⟨rfl, rfl, rfl⟩
    · rw [haux] at h; cases h; exact ⟨rfl, rfl, rfl⟩

/-- **C3** (amended from nothing — proved as stated): for every
`TransferState` whose missing ranges are ordered and disjoint and whose
credit is positive, every range returned by `fetch()` is a non-empty
subrange of some element of the missing-range list at the time of the
call. -/
theorem fetch_coverage (s : TransferState) (r : Rng) (s2 : TransferState)
    (hsorted : s.map.Pairwise (fun a b => a.stop ≤ b.start ∧ a.start < b.start))
    (hcredit : 0 < s.credit)
    (hfetch : s.fetch = some (some r, s2)) :
    r.start < r.stop ∧ ∃ mr ∈ s.map, mr.start ≤ r.start ∧ r.stop ≤ mr.stop := by
  unfold TransferState.fetch at hfetch
  rw [if_neg (by omega)] at hfetch
  rcases haux : TransferState.fetchAux 2 s.map ⟨s.offset, s.offset + TransferState.chunk_size⟩
    with _ | _ | r1
  · rw [haux] at hfetch; cases hfetch
  · rw [haux] at hfetch; cases hfetch
  · rw [haux] at hfetch
    cases hfetch
    exact fetchAux_found haux

/-- Witness for C3: fetching from a fresh 3-byte transfer returns the range
`[0, 3)`, a non-empty subrange of the (sole) missing range. -/
theorem fetch_coverage_witness :
    ((TransferState.init 3).map.Pairwise (fun a b => a.stop ≤ b.start ∧ a.start < b.start)
      ∧ 0 < (TransferState.init 3).credit) ∧
    ((Rng.mk 0 3).start < (Rng.mk 0 3).stop ∧
      ∃ mr ∈ (TransferState.init 3).map, mr.start ≤ (Rng.mk 0 3).start ∧ (Rng.mk 0 3).stop ≤ mr.stop) :=
  ⟨⟨by decide, by decide⟩,
    fetch_coverage (TransferState.init 3) (Rng.mk 0 3)
      { file := [0, 0, 0], credit := 0, offset := 3, map := [Rng.mk 0 3] }
      (by decide) (by decide) (by decide)⟩

/-- **C5**, corrected: a `fetch()` on an empty missing-range list returns
`None`, but it does not zero the credit — it decrements a positive credit
by one (and leaves a zero credit alone). -/
theorem fetch_on_empty_map (s : TransferState) (h : s.map = []) :
    s.fetch = some (none, { s with credit := s.credit - 1 }) := by
  unfold TransferState.fetch
  by_cases hc : s.credit = 0
  · rw [if_pos hc]
    cases s
    simp_all
  · rw [if_neg hc]
    simp [h, TransferState.fetchAux, TransferState.scan]

/-- Witness for the amended C5 at a concrete completed transfer. -/
theorem fetch_on_empty_map_witness :
    egEmptyMapTransfer.map = [] ∧
    egEmptyMapTransfer.fetch
      = some (none, { egEmptyMapTransfer with credit := egEmptyMapTransfer.credit - 1 }) :=
  ⟨by decide, fetch_on_empty_map egEmptyMapTransfer (by decide)⟩

/-- Counterexample to C5 as stated: a completed transfer whose credit was
restored to 10 by `reset_credit` (the `HELLO` recovery path) has an empty
missing-range list, yet `fetch()` leaves the credit at 9, not 0. -/
theorem fetch_on_empty_map_counterexample :
    egEmptyMapTransfer.map = [] ∧
    egEmptyMapTransfer.fetch
      = some (none, { file := [1, 2, 3], credit := 9, offset := 0, map := [] }) ∧
    (9 : Nat) ≠ 0 := by
  refine ⟨by decide, by decide, by decide⟩

/-! ## Lemmas about range subtraction and file writes -/

/-- Every piece produced by `subtractRng` is one of the two named pieces,
and is non-empty. -/
theorem mem_subtractRng_cases {p r ex : Rng} (hp : p ∈ subtractRng r ex) :
    (p = Rng.mk r.start (min r.stop ex.start) ∨ p = Rng.mk (max r.start ex.stop) r.stop)
    ∧ p.start < p.stop := by
  unfold subtractRng at hp
  rcases List.mem_append.mp hp with h | h
  · by_cases hc : (Rng.mk r.start (min r.stop ex.start)).nonempty
    · rw [if_pos hc] at h
      simp only [List.mem_singleton] at h
      subst h
      exact ⟨Or.inl rfl, by simpa [Rng.nonempty] using hc⟩
    · rw [if_neg hc] at h
      exact absurd h (List.not_mem_nil p)
  · by_cases hc : (Rng.mk (max r.start ex.stop) r.stop).nonempty
    · rw [if_pos hc] at h
      simp only [List.mem_singleton] at h
      subst h
      exact ⟨Or.inr rfl, by simpa [Rng.nonempty] using hc⟩
    · rw [if_neg hc] at h
      exact absurd h (List.not_mem_nil p)

/-- Subtracting `ex` from a piece that `subtractRng _ ex` already produced
is a no-op: the piece lies entirely below or entirely above `ex`. -/
theorem subtractRng_idem {p r ex : Rng} (hex : ex.start ≤ ex.stop)
    (hp : p ∈ subtractRng r ex) : subtractRng p ex = [p] := by
  obtain ⟨hcase, hne⟩ := mem_subtractRng_cases hp
  unfold subtractRng
  rcases hcase with h | h <;> subst h <;> simp only [Rng.nonempty] at hne ⊢
  · rw [if_pos (by simp only [decide_eq_true_eq]; omega),
        if_neg (by simp only [decide_eq_true_eq]; omega)]
    simp only [List.append_nil, List.cons.injEq, and_true, Rng.mk.injEq, true_and]
    omega
  · rw [if_neg (by simp only [decide_eq_true_eq]; omega),
        if_pos (by simp only [decide_eq_true_eq]; omega)]
    simp only [List.nil_append, List.cons.injEq, and_true, Rng.mk.injEq, true_and]
    omega

/-- A `flatMap` of a pointwise-identity subtraction is the identity. -/
theorem flatMap_subtract_eq_self {l : List Rng} {ex : Rng}
    (h : ∀ p ∈ l, subtractRng p ex = [p]) :
    l.flatMap (fun p => subtractRng p ex) = l := by
  induction l with
  | nil => simp
  | cons q qs ih =>
    rw [List.flatMap_cons, h q (List.mem_cons_self q qs),
      ih (fun p hp => h p (List.mem_cons_of_mem q hp))]
    rfl

/-- Subtracting the same range from a missing-range list twice is the same
as subtracting it once. -/
theorem exclude_idem (m : List Rng) (ex : Rng) (hex : ex.start ≤ ex.stop) :
    exclude (exclude m ex) ex = exclude m ex := by
  unfold exclude
  induction m with
  | nil => simp
  | cons r rest ih =>
    rw [List.flatMap_cons, List.flatMap_append, ih]
    congr 1
    exact flatMap_subtract_eq_self (fun p hp => subtractRng_idem hex hp)

/-- Reading back an index below the length of a `writeAt` result. -/
theorem getD_writeAt_lt {f : List Nat} {offset : Nat} {d : List Nat} {i : Nat}
    (hd : d.isEmpty = false) (hi : i < max f.length (offset + d.length)) :
    (writeAt f offset d).getD i 0 =
      if offset ≤ i ∧ i < offset + d.length then d.getD (i - offset) 0 else f.getD i 0 := by
  rw [writeAt, if_neg (by simp [hd])]
  rw [List.getD_eq_getElem?_getD, List.getElem?_map, List.getElem?_range hi]
  rfl

/-- Writing the same data at the same offset twice has the effect of
writing it once. -/
theorem writeAt_idem (f : List Nat) (offset : Nat) (d : List Nat) :
    writeAt (writeAt f offset d) offset d = writeAt f offset d := by
  by_cases hd : d.isEmpty
  · simp [writeAt, hd]
  · rw [Bool.not_eq_true] at hd
    have hlen : (writeAt f offset d).length = max f.length (offset + d.length) := by
      rw [writeAt, if_neg (by simp [hd])]
      simp
    conv_lhs => rw [writeAt, if_neg (by simp [hd])]
    conv_rhs => rw [writeAt, if_neg (by simp [hd])]
    rw [hlen, Nat.max_assoc, Nat.max_self]
    apply List.map_congr_left
    intro i hi
    rw [List.mem_range] at hi
    by_cases hw : offset ≤ i ∧ i < offset + d.length
    · simp [hw]
    · rw [if_neg hw, if_neg hw, getD_writeAt_lt hd hi, if_neg hw]

/-- **C4**: applying the same `chunk(offset, data)` twice in succession
leaves the missing-range list and the backing file's bytes identical to
applying it once. -/
theorem chunk_idempotent (s : TransferState) (offset : Nat) (data : List Nat) :
    ((s.chunk offset data).chunk offset data).map = (s.chunk offset data).map ∧
    ((s.chunk offset data).chunk offset data).file = (s.chunk offset data).file := by
  constructor
  · show exclude (exclude s.map ⟨offset, offset + data.length⟩) ⟨offset, offset + data.length⟩
      = exclude s.map ⟨offset, offset + data.length⟩
    exact exclude_idem _ _ (by simp)
  · exact writeAt_idem s.file offset data

/-! ## Lemmas about the address maps and the slave driver -/

/-- Looking up the address just written finds the written value. -/
theorem lookupAddr_insertAddr_self {α : Type} (l : List (Nat × α)) (a : Nat) (v : α) :
    lookupAddr (insertAddr l a v) a = some v := by
  unfold lookupAddr insertAddr
  rw [List.find?_cons_of_pos _ (by simp)]
  rfl

/-- Looking up a deleted address finds nothing. -/
theorem lookupAddr_removeAddr_self {α : Type} (l : List (Nat × α)) (a : Nat) :
    lookupAddr (removeAddr l a) a = none := by
  unfold lookupAddr removeAddr
  rw [List.find?_eq_none.mpr]
  · rfl
  · intro p hp
    have := (List.mem_filter.mp hp).2
    simp only [bne_iff_ne, ne_eq] at this
    simp [this]

/-- **C1**: when a worker in the SENDING phase (a current transfer and a
current build on its `SlaveState`) sends `SENT`, the driver replies `DONE`
and enqueues the build's package on the indexes queue iff
`TransferState.verify` of the current build succeeds; when verification
fails it replies `SEND` and enqueues nothing. -/
theorem sent_dispatch (verify : TransferState → BuildState → Bool) (now : Nat)
    (ds : DriverState) (addr : Nat) (slave : SlaveState) (t : TransferState) (b : BuildState)
    (hslave : lookupAddr ds.slaves addr = some slave)
    (ht : slave.transfer = some t) (hb : slave.build = some b) :
    ∃ res, slaveDriverStep verify now ds addr .sent = some res ∧
      ((res.sent = some Reply.done ∧ res.indexEmits = [b.package]) ↔ verify t b = true) ∧
      (verify t b = false → res.sent = some Reply.send ∧ res.indexEmits = []) := by
  cases hv : verify t b <;>
    simp [slaveDriverStep, hslave, SlaveState.setRequest, SlaveState.setReply, ht, hb, hv]

/-- Witness for C1 at a concrete SENDING worker, with a verifier oracle that
accepts. -/
theorem sent_dispatch_witness :
    (lookupAddr egSendingDriver.slaves 7 = some egSendingSlave ∧
      egSendingSlave.transfer = some (TransferState.init 3) ∧
      egSendingSlave.build = some egBuild) ∧
    (∃ res, slaveDriverStep (fun _ _ => true) 5 egSendingDriver 7 .sent = some res ∧
      ((res.sent = some Reply.done ∧ res.indexEmits = [egBuild.package])
        ↔ (fun _ _ => true) (TransferState.init 3) egBuild = true) ∧
      ((fun _ _ => true) (TransferState.init 3) egBuild = false →
        res.sent = some Reply.send ∧ res.indexEmits = [])) :=
  ⟨⟨by decide, by decide, by decide⟩,
    sent_dispatch (fun _ _ => true) 5 egSendingDriver 7 egSendingSlave
      (TransferState.init 3) egBuild (by decide) (by decide) (by decide)⟩

/-- **C7**, corrected: a `HELLO` from a worker whose address is already in
the slaves map is *answered* with `HELLO` carrying the existing slave id
(the source logs "New slave" and falls into the common HELLO branch); no
new `SlaveState` is allocated (the counter is unchanged) and the worker's
entry keeps its build, transfer, terminated flag and id — only `last_seen`,
`request` and `reply` are updated. -/
theorem slave_hello_known (verify : TransferState → BuildState → Bool) (now : Nat)
    (ds : DriverState) (addr : Nat) (slave : SlaveState)
    (h : lookupAddr ds.slaves addr = some slave) :
    ∃ res, slaveDriverStep verify now ds addr .hello = some res ∧
      res.sent = some (Reply.hello slave.slave_id) ∧
      res.state.counter = ds.counter ∧
      lookupAddr res.state.slaves addr = some
        { slave with
          last_seen := some now
          request := some SlaveMsg.hello
          reply := some (Reply.hello slave.slave_id) } := by
  simp only [slaveDriverStep, h, SlaveState.setRequest, SlaveState.setReply]
  exact ⟨_, rfl, rfl, rfl, lookupAddr_insertAddr_self _ _ _⟩

/-- Witness for the amended C7 at a concrete known worker. -/
theorem slave_hello_known_witness :
    lookupAddr egKnownDriver.slaves 7 = some (SlaveState.init 3) ∧
    (∃ res, slaveDriverStep (fun _ _ => true) 0 egKnownDriver 7 .hello = some res ∧
      res.sent = some (Reply.hello (SlaveState.init 3).slave_id) ∧
      res.state.counter = egKnownDriver.counter ∧
      lookupAddr res.state.slaves 7 = some
        { SlaveState.init 3 with
          last_seen := some 0
          request := some SlaveMsg.hello
          reply := some (Reply.hello (SlaveState.init 3).slave_id) }) :=
  ⟨by decide, slave_hello_known (fun _ _ => true) 0 egKnownDriver 7 (SlaveState.init 3) (by decide)⟩

/-- Counterexample to C7 as stated: a `HELLO` from the known worker at
address 7 is *not* ignored — the driver sends back `HELLO` with the
existing slave id 3 (the claim asserts that no reply is sent). -/
theorem slave_hello_known_counterexample :
    (slaveDriverStep (fun _ _ => true) 0 egKnownDriver 7 SlaveMsg.hello).map StepResult.sent
      = some (some (Reply.hello 3)) ∧
    some (Reply.hello 3) ≠ (none : Option Reply) := by
  refine ⟨by decide, by decide⟩

/-- **C8**, corrected: once a worker's terminated flag is set, its next
`IDLE` is answered with `BYE`, but its entry *stays* in the slaves map; the
entry is removed only when the worker subsequently sends `BYE` (which gets
no reply). -/
theorem slave_terminated_idle (verify : TransferState → BuildState → Bool) (now : Nat)
    (ds : DriverState) (addr : Nat) (slave : SlaveState)
    (h : lookupAddr ds.slaves addr = some slave)
    (hterm : slave.terminated = true) :
    ∃ res, slaveDriverStep verify now ds addr .idle = some res ∧
      res.sent = some Reply.bye ∧
      (∃ s2, lookupAddr res.state.slaves addr = some s2) ∧
      (∃ res2, slaveDriverStep verify now res.state addr .bye = some res2 ∧
        res2.sent = none ∧ lookupAddr res2.state.slaves addr = none) := by
  simp only [slaveDriverStep, h, SlaveState.setRequest, SlaveState.setReply, hterm, if_true]
  refine ⟨_, rfl, rfl, ⟨_, lookupAddr_insertAddr_self _ _ _⟩, ?_⟩
  simp only [lookupAddr_insertAddr_self]
  exact ⟨_, rfl, rfl, lookupAddr_removeAddr_self _ _⟩

/-- Witness for the amended C8 at a concrete killed worker. -/
theorem slave_terminated_idle_witness :
    (lookupAddr egKilledDriver.slaves 7
        = some { SlaveState.init 2 with terminated := true } ∧
      ({ SlaveState.init 2 with terminated := true } : SlaveState).terminated = true) ∧
    (∃ res, slaveDriverStep (fun _ _ => true) 0 egKilledDriver 7 .idle = some res ∧
      res.sent = some Reply.bye ∧
      (∃ s2, lookupAddr res.state.slaves 7 = some s2) ∧
      (∃ res2, slaveDriverStep (fun _ _ => true) 0 res.state 7 .bye = some res2 ∧
        res2.sent = none ∧ lookupAddr res2.state.slaves 7 = none)) :=
  ⟨⟨by decide, by decide⟩,
    slave_terminated_idle (fun _ _ => true) 0 egKilledDriver 7
      { SlaveState.init 2 with terminated := true } (by decide) (by decide)⟩

/-- Counterexample to C8 as stated: the terminated worker at address 7 gets
the `BYE` reply to its `IDLE`, yet its entry is still present in the slaves
map right after that reply (the claim asserts it is removed then). -/
theorem slave_terminated_idle_counterexample :
    (slaveDriverStep (fun _ _ => true) 0 egKilledDriver 7 SlaveMsg.idle).map
        (fun r => (r.sent, (lookupAddr r.state.slaves 7).isSome))
      = some (some Reply.bye, true) := by
  decide

/-- **C10**: the `reply` setter builds a brand-new `TransferState` from the
current build's filesize on a `SEND` reply (replacing any current
transfer), clears both `build` and `transfer` on a `DONE` reply, and leaves
both fields unchanged for every other reply tag. -/
theorem reply_setter_transfer (s : SlaveState) (b : BuildState) (hb : s.build = some b) :
    s.setReply Reply.send = some { s with reply := some Reply.send, transfer := some (TransferState.init b.filesize) } ∧
    s.setReply Reply.done = some { s with reply := some Reply.done, build := none, transfer := none } ∧
    ∀ r : Reply, r ≠ Reply.send → r ≠ Reply.done → s.setReply r = some { s with reply := some r } := by
  refine ⟨?_, ?_, ?_⟩
  · simp [SlaveState.setReply, hb]
  · simp [SlaveState.setReply]
  · intro r h1 h2
    cases r <;> simp_all [SlaveState.setReply]

/-- Witness for C10 at a concrete SENDING worker. -/
theorem reply_setter_transfer_witness :
    egSendingSlave.build = some egBuild ∧
    (egSendingSlave.setReply Reply.send
        = some { egSendingSlave with reply := some Reply.send, transfer := some (TransferState.init egBuild.filesize) } ∧
      egSendingSlave.setReply Reply.done
        = some { egSendingSlave with reply := some Reply.done, build := none, transfer := none } ∧
      ∀ r : Reply, r ≠ Reply.send → r ≠ Reply.done →
        egSendingSlave.setReply r = some { egSendingSlave with reply := some r }) :=
  ⟨by decide, reply_setter_transfer egSendingSlave egBuild (by decide)⟩

/-! ## Lemmas about the build catcher -/

/-- With a non-empty first missing range (or no missing range at all) the
`while True` loop of `fetch` terminates within two passes: the second pass
starts its window at `_map[0].start`, which intersects `_map[0]`. -/
theorem fetchAux_two_ne_none (m : List Rng) (fr : Rng) (h : headOk m = true) :
    TransferState.fetchAux 2 m fr ≠ none := by
  rcases m with _ | ⟨m0, rest⟩
  · simp [TransferState.fetchAux, TransferState.scan]
  · cases hs : TransferState.scan (m0 :: rest) fr with
    | found r => simp [TransferState.fetchAux, hs]
    | missed =>
      have hm0 : m0.start < m0.stop := by simpa [headOk] using h
      have hne : (intersect m0 ⟨m0.start, m0.start + TransferState.chunk_size⟩).nonempty = true := by
        simp only [intersect, Rng.nonempty, decide_eq_true_eq, TransferState.chunk_size]
        omega
      have hs2 : TransferState.scan (m0 :: rest) ⟨m0.start, m0.start + TransferState.chunk_size⟩
          = .found (intersect m0 ⟨m0.start, m0.start + TransferState.chunk_size⟩) := by
        simp only [TransferState.scan]
        rw [if_pos hne]
      simp [TransferState.fetchAux, hs, hs2]

/-- Under `headOk`, a `fetch()` call returns. -/
theorem fetch_some_of_headOk (s : TransferState) (h : headOk s.map = true) :
    ∃ ro s2, s.fetch = some (ro, s2) := by
  unfold TransferState.fetch
  by_cases hc : s.credit = 0
  · rw [if_pos hc]
    exact ⟨none, s, rfl⟩
  · rw [if_neg hc]
    rcases haux : TransferState.fetchAux 2 s.map ⟨s.offset, s.offset + TransferState.chunk_size⟩
      with _ | _ | r
    · exact absurd haux (fetchAux_two_ne_none _ _ h)
    · exact ⟨_, _, rfl⟩
    · exact ⟨_, _, rfl⟩

/-- Under `headOk`, the FETCH-issuing loop returns, and it does not change
the missing-range list. -/
theorem fetchLoopAux_some (fuel : Nat) (s : TransferState) (h : headOk s.map = true) :
    ∃ rs s2, fetchLoopAux fuel s = some (rs, s2) ∧ s2.map = s.map := by
  induction fuel generalizing s with
  | zero => exact ⟨[], s, rfl, rfl⟩
  | succ n ih =>
    obtain ⟨ro, s1, hf⟩ := fetch_some_of_headOk s h
    have hmap := (fetch_preserves hf).1
    rcases ro with _ | r
    · exact ⟨[], s1, by simp [fetchLoopAux, hf], hmap⟩
    · obtain ⟨rs, s2, hl, hm2⟩ := ih s1 (by rw [hmap]; exact h)
      exact ⟨r :: rs, s2, by simp [fetchLoopAux, hf, hl], hm2.trans hmap⟩

/-- Under `headOk`, `issueFetches` returns without changing the
missing-range list. -/
theorem issueFetches_some (addr : Nat) (t : TransferState) (h : headOk t.map = true) :
    ∃ t2 outs, issueFetches addr t = some (t2, outs) ∧ t2.map = t.map := by
  obtain ⟨rs, s2, hl, hm⟩ := fetchLoopAux_some t.credit t h
  exact ⟨s2, rs.map (fun r => FileOut.fetchOut addr r.start r.len),
    by simp [issueFetches, fetchLoop, hl], hm⟩

/-- **C6**, corrected: protocol violations arriving for an *unknown* address
(wrong tag, malformed `HELLO` integer, unknown slave id) are logged and
dropped without faulting and leave the transfer dict unchanged; a wrong tag
for a *known* address with a live transfer keeps the address's entry
(updated in place by the trailing FETCH loop) and does not fault; but a
`HELLO` naming a known slave with no active transfer stores the absent
transfer and then faults with an uncaught exception (`None.fetch()`). -/
theorem catcher_violation_handling (slaves : List SlaveState) (cs : CatcherState) (addr : Nat) :
    (∀ tag, lookupAddr cs.transfers addr = none →
      buildCatcherStep slaves cs addr (.other tag) = some (cs, [])) ∧
    (lookupAddr cs.transfers addr = none →
      buildCatcherStep slaves cs addr (.hello none) = some (cs, [])) ∧
    (∀ sid, lookupAddr cs.transfers addr = none → (∀ s ∈ slaves, s.slave_id ≠ sid) →
      buildCatcherStep slaves cs addr (.hello (some sid)) = some (cs, [])) ∧
    (∀ tag t, lookupAddr cs.transfers addr = some (some t) → headOk t.map = true →
      ∃ t2 outs, buildCatcherStep slaves cs addr (.other tag)
          = some ({ transfers := insertAddr cs.transfers addr (some t2) }, outs) ∧
        t2.map = t.map) ∧
    (∀ sid slave, lookupAddr cs.transfers addr = none →
      (slaves.filter (fun s => s.slave_id == sid)).head? = some slave →
      slave.transfer = none →
      buildCatcherStep slaves cs addr (.hello (some sid)) = none) := by
  refine ⟨?_, ?_, ?_, ?_, ?_⟩
  · intro tag h
    simp [buildCatcherStep, h]
  · intro h
    simp [buildCatcherStep, h]
  · intro sid h hs
    have hfil : (slaves.filter (fun s => s.slave_id == sid)).head? = none := by
      rw [List.filter_eq_nil_iff.mpr]
      · rfl
      · intro s hmem
        simpa using hs s hmem
    simp [buildCatcherStep, h, hfil]
  · intro tag t h hok
    obtain ⟨t2, outs, hi, hm⟩ := issueFetches_some addr t hok
    exact ⟨t2, outs, by simp [buildCatcherStep, h, hi], hm⟩
  · intro sid slave h hfind htr
    simp [buildCatcherStep, h, hfind, htr]

/-- Witness for the amended C6, instantiating each conjunct concretely. -/
theorem catcher_violation_handling_witness :
    (buildCatcherStep [SlaveState.init 1] egCatcherEmpty 5 (.other "JUNK")
        = some (egCatcherEmpty, [])) ∧
    (buildCatcherStep [SlaveState.init 1] egCatcherEmpty 5 (.hello none)
        = some (egCatcherEmpty, [])) ∧
    (buildCatcherStep [SlaveState.init 1] egCatcherEmpty 5 (.hello (some 2))
        = some (egCatcherEmpty, [])) ∧
    (∃ t2 outs, buildCatcherStep [] egCatcherLive 5 (.other "JUNK")
        = some ({ transfers := insertAddr egCatcherLive.transfers 5 (some t2) }, outs) ∧
      t2.map = (TransferState.init 8).map) ∧
    (buildCatcherStep [SlaveState.init 1] egCatcherEmpty 5 (.hello (some 1)) = none) :=
  ⟨(catcher_violation_handling [SlaveState.init 1] egCatcherEmpty 5).1 "JUNK" (by decide),
    (catcher_violation_handling [SlaveState.init 1] egCatcherEmpty 5).2.1 (by decide),
    (catcher_violation_handling [SlaveState.init 1] egCatcherEmpty 5).2.2.1 2 (by decide)
      (by decide),
    (catcher_violation_handling [] egCatcherLive 5).2.2.2.1 "JUNK" (TransferState.init 8)
      (by decide) (by decide),
    (catcher_violation_handling [SlaveState.init 1] egCatcherEmpty 5).2.2.2.2 1
      (SlaveState.init 1) (by decide) (by decide) (by decide)⟩

/-- Counterexample to C6 as stated: a `HELLO` naming slave 1, which has no
active transfer, makes the handler fault (the claim asserts that every
protocol violation is dropped without faulting). -/
theorem catcher_violation_handling_counterexample :
    buildCatcherStep [SlaveState.init 1] egCatcherEmpty 5 (FileMsg.hello (some 1)) = none := by
  decide

/-! ## The atomic index-writer discipline -/

/-- **C9**, corrected: every index writer creates its temporary in the
destination directory, writes the full content and sets mode 0644 before
the target is touched, and the only event touching the target is the
atomic rename of the fully-written temporary on success — so a partial
target is never visible.  But on a write error only `AtomicReplaceFile`
(the scribe) unlinks the temporary; `write_root_index` and
`write_package_index` (`NamedTemporaryFile(delete=False)`, no cleanup
handler) leave the temporary file behind. -/
theorem atomic_write_discipline (dir tmp target : String) (hneq : tmp ≠ target) :
    atomicReplaceFileRun dir tmp target true
      = [.createTemp dir tmp, .writeFull tmp, .chmod644 tmp, .closeFile tmp,
          .rename tmp target] ∧
    namedTempIndexWrite dir tmp target true
      = [.createTemp dir tmp, .writeFull tmp, .chmod644 tmp, .rename tmp target,
          .closeFile tmp] ∧
    FsOp.unlink tmp ∈ atomicReplaceFileRun dir tmp target false ∧
    FsOp.unlink tmp ∉ namedTempIndexWrite dir tmp target false ∧
    (∀ ok, (atomicReplaceFileRun dir tmp target ok).filter (touchesPath target)
        = if ok then [FsOp.rename tmp target] else []) ∧
    (∀ ok, (namedTempIndexWrite dir tmp target ok).filter (touchesPath target)
        = if ok then [FsOp.rename tmp target] else []) := by
  have hbeq : (tmp == target) = false := by
    simp only [beq_eq_false_iff_ne, ne_eq]
    exact hneq
  refine ⟨rfl, rfl, by simp [atomicReplaceFileRun], by simp [namedTempIndexWrite], ?_, ?_⟩
  · intro ok
    cases ok <;> simp [atomicReplaceFileRun, touchesPath, hbeq]
  · intro ok
    cases ok <;> simp [namedTempIndexWrite, touchesPath, hbeq]

/-- Witness for the amended C9 at concrete paths. -/
theorem atomic_write_discipline_witness :
    ("tmpXYZ" ≠ "index.html") ∧
    (atomicReplaceFileRun "www" "tmpXYZ" "index.html" true
      = [.createTemp "www" "tmpXYZ", .writeFull "tmpXYZ", .chmod644 "tmpXYZ",
          .closeFile "tmpXYZ", .rename "tmpXYZ" "index.html"] ∧
    namedTempIndexWrite "www" "tmpXYZ" "index.html" true
      = [.createTemp "www" "tmpXYZ", .writeFull "tmpXYZ", .chmod644 "tmpXYZ",
          .rename "tmpXYZ" "index.html", .closeFile "tmpXYZ"] ∧
    FsOp.unlink "tmpXYZ" ∈ atomicReplaceFileRun "www" "tmpXYZ" "index.html" false ∧
    FsOp.unlink "tmpXYZ" ∉ namedTempIndexWrite "www" "tmpXYZ" "index.html" false ∧
    (∀ ok, (atomicReplaceFileRun "www" "tmpXYZ" "index.html" ok).filter (touchesPath "index.html")
        = if ok then [FsOp.rename "tmpXYZ" "index.html"] else []) ∧
    (∀ ok, (namedTempIndexWrite "www" "tmpXYZ" "index.html" ok).filter (touchesPath "index.html")
        = if ok then [FsOp.rename "tmpXYZ" "index.html"] else [])) :=
  ⟨by decide, atomic_write_discipline "www" "tmpXYZ" "index.html" (by decide)⟩

/-- Counterexample to C9 as stated: on a write error, the root/package
index writer of the master does not unlink its temporary — its whole error
trace is create, partial write, close, with no unlink event. -/
theorem atomic_write_discipline_counterexample :
    namedTempIndexWrite "www" "tmpXYZ" "index.html" false
      = [.createTemp "www" "tmpXYZ", .writePartial "tmpXYZ", .closeFile "tmpXYZ"] ∧
    FsOp.unlink "tmpXYZ" ∉ namedTempIndexWrite "www" "tmpXYZ" "index.html" false := by
  refine ⟨rfl, by decide⟩

/-! ## The range-completeness invariant (C2) -/

/-- A byte lies in some piece of `subtractRng r ex` iff it lies in `r` but
not in `ex`: `subtractRng` computes the set difference. -/
theorem mem_subtractRng_iff {r ex : Rng} {i : Nat} :
    (∃ p ∈ subtractRng r ex, p.memB i = true) ↔ (r.memB i = true ∧ ¬ ex.memB i = true) := by
  constructor
  · rintro ⟨p, hp, hmem⟩
    obtain ⟨hc, _⟩ := mem_subtractRng_cases hp
    simp only [Rng.memB, Bool.and_eq_true, decide_eq_true_eq] at hmem ⊢
    rcases hc with rfl | rfl <;>
      simp only [Rng.memB, Bool.and_eq_true, decide_eq_true_eq, not_and, not_lt] at hmem ⊢ <;>
      constructor <;> intros <;> omega
  · rintro ⟨hr, hexm⟩
    simp only [Rng.memB, Bool.and_eq_true, decide_eq_true_eq, not_and, not_lt] at hr hexm
    unfold subtractRng
    by_cases hi : i < ex.start
    · refine ⟨⟨r.start, min r.stop ex.start⟩, List.mem_append_left _ ?_, ?_⟩
      · rw [if_pos (by simp only [Rng.nonempty, decide_eq_true_eq]; omega)]
        exact List.mem_singleton_self _
      · simp only [Rng.memB, Bool.and_eq_true, decide_eq_true_eq]
        omega
    · have hstop : ex.stop ≤ i := by
        rcases Nat.lt_or_ge i ex.stop with hlt | hge
        · exact absurd (hexm (by omega)) (by omega)
        · exact hge
      refine ⟨⟨max r.start ex.stop, r.stop⟩, List.mem_append_right _ ?_, ?_⟩
      · rw [if_pos (by simp only [Rng.nonempty, decide_eq_true_eq]; omega)]
        exact List.mem_singleton_self _
      · simp only [Rng.memB, Bool.and_eq_true, decide_eq_true_eq]
        omega

/-- A byte is missing after `exclude` iff it was missing before and was not
covered by the excluded range. -/
theorem unionMemB_exclude (m : List Rng) (ex : Rng) (i : Nat) :
    unionMemB (exclude m ex) i = true ↔ (unionMemB m i = true ∧ ¬ ex.memB i = true) := by
  unfold unionMemB exclude
  rw [List.any_eq_true]
  constructor
  · rintro ⟨p, hp, hmem⟩
    obtain ⟨r, hr, hpr⟩ := List.mem_flatMap.mp hp
    have h := mem_subtractRng_iff.mp ⟨p, hpr, hmem⟩
    exact ⟨List.any_eq_true.mpr ⟨r, hr, h.1⟩, h.2⟩
  · rintro ⟨hm, hexm⟩
    obtain ⟨r, hr, hrmem⟩ := List.any_eq_true.mp hm
    obtain ⟨p, hp, hpm⟩ := mem_subtractRng_iff.mpr ⟨hrmem, hexm⟩
    exact ⟨p, List.mem_flatMap.mpr ⟨r, hr, hp⟩, hpm⟩

/-- `exclude` preserves the ordered-disjoint well-formedness of the
missing-range list. -/
theorem RangesInv_exclude {f : Nat} {m : List Rng} {ex : Rng}
    (hex : ex.start ≤ ex.stop) (h : RangesInv f m) : RangesInv f (exclude m ex) := by
  obtain ⟨hb, hp⟩ := h
  constructor
  · intro p hp2
    obtain ⟨r, hr, hpr⟩ := List.mem_flatMap.mp hp2
    obtain ⟨hc, hne⟩ := mem_subtractRng_cases hpr
    have hbr := hb r hr
    rcases hc with rfl | rfl <;> simp only at hne ⊢ <;> constructor <;> omega
  · apply List.pairwise_flatMap.mpr
    constructor
    · intro r _
      unfold subtractRng
      by_cases h1 : (Rng.mk r.start (min r.stop ex.start)).nonempty <;>
        by_cases h2 : (Rng.mk (max r.start ex.stop) r.stop).nonempty <;>
        simp only [h1, h2, if_true, if_false, Bool.not_eq_true] <;>
        simp only [Rng.nonempty, decide_eq_true_eq] at h1 h2 <;>
        simp [List.pairwise_cons]
      omega
    · refine hp.imp ?_
      intro a b hab x hx y hy
      obtain ⟨hcx, hnex⟩ := mem_subtractRng_cases hx
      obtain ⟨hcy, hney⟩ := mem_subtractRng_cases hy
      rcases hcx with rfl | rfl <;> rcases hcy with rfl | rfl <;>
        simp only at hnex hney ⊢ <;>
        exact ⟨by omega, by omega⟩

/-- With an ordered, disjoint, in-bounds missing-range list, the summed
range lengths count exactly the missing bytes of `[0, filesize)`. -/
theorem totalLen_eq_card (f : Nat) (m : List Rng)
    (hb : ∀ r ∈ m, r.start ≤ r.stop ∧ r.stop ≤ f)
    (hp : m.Pairwise (fun a b => a.stop ≤ b.start ∧ a.start < b.start)) :
    totalLen m = ((Finset.range f).filter (fun i => unionMemB m i = true)).card := by
  induction m with
  | nil => simp [totalLen, unionMemB]
  | cons r rest ih =>
    obtain ⟨hhead, htail⟩ := List.pairwise_cons.mp hp
    have hbr := hb r (List.mem_cons_self r rest)
    have hbrest : ∀ x ∈ rest, x.start ≤ x.stop ∧ x.stop ≤ f :=
      fun x hx => hb x (List.mem_cons_of_mem r hx)
    have hsplit : ((Finset.range f).filter (fun i => unionMemB (r :: rest) i = true))
        = (Finset.range f).filter (fun i => r.memB i = true)
          ∪ (Finset.range f).filter (fun i => unionMemB rest i = true) := by
      rw [← Finset.filter_or]
      apply Finset.filter_congr
      intro i _
      simp [unionMemB, List.any_cons]
    have hdisj : Disjoint ((Finset.range f).filter (fun i => r.memB i = true))
        ((Finset.range f).filter (fun i => unionMemB rest i = true)) := by
      rw [Finset.disjoint_left]
      intro i hi1 hi2
      have h1 := (Finset.mem_filter.mp hi1).2
      obtain ⟨x, hx, hxm⟩ := List.any_eq_true.mp (Finset.mem_filter.mp hi2).2
      have hr := hhead x hx
      simp only [Rng.memB, Bool.and_eq_true, decide_eq_true_eq] at h1 hxm
      omega
    have hIco : (Finset.range f).filter (fun i => r.memB i = true)
        = Finset.Ico r.start r.stop := by
      ext i
      simp only [Finset.mem_filter, Finset.mem_range, Finset.mem_Ico, Rng.memB,
        Bool.and_eq_true, decide_eq_true_eq]
      omega
    rw [hsplit, Finset.card_union_of_disjoint hdisj, hIco, Nat.card_Ico,
      ← ih hbrest htail]
    simp [totalLen, Rng.len]

/-- Running any sequence of `chunk`/`fetch` calls preserves the
well-formedness of the missing-range list and keeps its pointwise meaning:
a byte is missing iff it is below the filesize and no chunk so far covered
it.  `C` abstracts the bytes already covered before the run. -/
theorem applyOps_inv (f : Nat) (ops : List Op) (C : Nat → Bool) (s s2 : TransferState)
    (hrun : applyOps s ops = some s2)
    (hinv : RangesInv f s.map)
    (hmem : ∀ i, unionMemB s.map i = true ↔ (i < f ∧ ¬ C i = true)) :
    RangesInv f s2.map ∧
    ∀ i, unionMemB s2.map i = true ↔ (i < f ∧ ¬ (C i || covered ops i) = true) := by
  induction ops generalizing s C with
  | nil =>
    simp only [applyOps, Option.some.injEq] at hrun
    subst hrun
    refine ⟨hinv, fun i => ?_⟩
    simpa [covered] using hmem i
  | cons op ops ih =>
    match op with
    | .chunkOp offset data =>
      simp only [applyOps, applyOp, Option.some_bind] at hrun
      have hinv1 : RangesInv f (s.chunk offset data).map :=
        RangesInv_exclude (by simp) hinv
      have hmem1 : ∀ i, unionMemB (s.chunk offset data).map i = true
          ↔ (i < f ∧ ¬ ((C i || covOp (.chunkOp offset data) i)) = true) := by
        intro i
        show unionMemB (exclude s.map ⟨offset, offset + data.length⟩) i = true ↔ _
        rw [unionMemB_exclude, hmem i]
        show _ ↔ (i < f ∧ ¬ (C i || (Rng.mk offset (offset + data.length)).memB i) = true)
        simp only [Bool.or_eq_true]
        tauto
      obtain ⟨hinv2, hmem2⟩ := ih (fun i => C i || covOp (.chunkOp offset data) i)
        (s.chunk offset data) hrun hinv1 hmem1
      refine ⟨hinv2, fun i => ?_⟩
      rw [hmem2 i]
      simp [covered, List.any_cons, Bool.or_assoc]
    | .fetchOp =>
      simp only [applyOps, applyOp] at hrun
      rcases hf : s.fetch with _ | ⟨ro, s1⟩
      · rw [hf] at hrun
        exact absurd hrun (by simp)
      · rw [hf] at hrun
        simp only [Option.map_some', Option.some_bind] at hrun
        have hmap := (fetch_preserves hf).1
        obtain ⟨hinv2, hmem2⟩ := ih C s1 hrun (by rwa [hmap])
          (fun i => by rw [hmap]; exact hmem i)
        refine ⟨hinv2, fun i => ?_⟩
        rw [hmem2 i]
        simp [covered, List.any_cons, covOp]

/-- **C2**: after any sequence of `chunk()`/`fetch()` calls from creation
with a given filesize (that returns — `fetch` can spin forever on a
degenerate zero-byte map), the summed length of the missing ranges plus the
number of distinct bytes delivered by chunks equals the filesize, and the
missing ranges are pairwise disjoint and strictly increasing by start. -/
theorem transfer_range_completeness (f : Nat) (ops : List Op) (s : TransferState)
    (h : applyOps (TransferState.init f) ops = some s) :
    totalLen s.map + receivedCount f ops = f ∧
    s.map.Pairwise (fun a b =>
      (∀ i, ¬(a.memB i = true ∧ b.memB i = true)) ∧ a.start < b.start) := by
  have hinit_inv : RangesInv f (TransferState.init f).map := by
    constructor
    · intro r hr
      simp only [TransferState.init, List.mem_singleton] at hr
      subst hr
      exact ⟨Nat.zero_le f, Nat.le_refl f⟩
    · simp [TransferState.init]
  have hinit_mem : ∀ i, unionMemB (TransferState.init f).map i = true
      ↔ (i < f ∧ ¬ (fun _ : Nat => false) i = true) := by
    intro i
    simp [TransferState.init, unionMemB, Rng.memB]
  obtain ⟨hinv, hmem⟩ := applyOps_inv f ops (fun _ => false) _ s h hinit_inv hinit_mem
  constructor
  · have htl := totalLen_eq_card f s.map hinv.1 hinv.2
    have hcongr : (Finset.range f).filter (fun i => unionMemB s.map i = true)
        = (Finset.range f).filter (fun i => ¬ covered ops i = true) := by
      apply Finset.filter_congr
      intro i hi
      rw [Finset.mem_range] at hi
      rw [hmem i]
      simp [hi]
    rw [htl, hcongr, receivedCount, Nat.add_comm]
    have hc := Finset.filter_card_add_filter_neg_card_eq_card
      (s := Finset.range f) (p := fun i => covered ops i = true)
    rwa [Finset.card_range] at hc
  · refine hinv.2.imp ?_
    intro a b hab
    refine ⟨fun i hi => ?_, hab.2⟩
    obtain ⟨h1, h2⟩ := hi
    simp only [Rng.memB, Bool.and_eq_true, decide_eq_true_eq] at h1 h2
    omega

/-- Witness for C2: a 1-byte chunk then a fetch on a 2-byte transfer leaves
one missing byte, and 1 + 1 = 2. -/
theorem transfer_range_completeness_witness :
    applyOps (TransferState.init 2) egOps = some egC2End ∧
    (totalLen egC2End.map + receivedCount 2 egOps = 2 ∧
      egC2End.map.Pairwise (fun a b =>
        (∀ i, ¬(a.memB i = true ∧ b.memB i = true)) ∧ a.start < b.start)) :=
  ⟨by decide, transfer_range_completeness 2 egOps egC2End (by decide)⟩

end PiWheels
